import Mathlib

/-!
# flightSim: sweep control, attitude clamping and force integration of `src/main.cpp`

A shallow embedding of the controller in `src/main.cpp`.

* `float` values are rationals: every operation is read in exact arithmetic.
* The process-wide `static` variables are the fields of `State`.
* Everything the file calls but does not define (namespace `Simulation`, class
  `Model`, the `glm` matrix routines) is a field of `Deps`.
* `State.issued` is a trace: it records every `Simulation::set` and
  `Simulation::sweep` call together with the value `Simulation::slice()` had
  when the call was made.  The program does not read it.
* Console output, timing (`glfwGetTime`) and context switches
  (`glfwMakeContextCurrent`) carry no state and are left out.
-/

namespace FlightSim

/-! ## Data model -/

/-- `enum class SimModel { airfoil, f18, sphere }`. -/
inductive SimModel where
  | airfoil
  | f18
  | sphere
deriving DecidableEq, Repr

/-- `glm::vec3`, in exact arithmetic. -/
structure Vec3 where
  x : ℚ
  y : ℚ
  z : ℚ
deriving DecidableEq, Repr

namespace Vec3

/-- `vec3(0)`. -/
def zero : Vec3 := ⟨0, 0, 0⟩

/-- Unary minus, componentwise. -/
def neg (v : Vec3) : Vec3 := ⟨-v.x, -v.y, -v.z⟩

/-- Componentwise sum, `a + b`. -/
def add (a b : Vec3) : Vec3 := ⟨a.x + b.x, a.y + b.y, a.z + b.z⟩

/-- Division by a scalar, `v / c`. -/
def sdiv (v : Vec3) (c : ℚ) : Vec3 := ⟨v.x / c, v.y / c, v.z / c⟩

/-- Product with a scalar, `c * v`. -/
def smul (c : ℚ) (v : Vec3) : Vec3 := ⟨c * v.x, c * v.y, c * v.z⟩

end Vec3

/-- What `main.cpp` uses and does not define. -/
structure Deps where
  /-- The state behind namespace `Simulation`. -/
  Sim : Type
  /-- Class `Model`. -/
  Model : Type
  /-- The type `mat4`. -/
  Mat4 : Type
  /-- The type `mat3`. -/
  Mat3 : Type
  /-- `Simulation::set(model, modelMat, normalMat, depth, centerOfGravity, debug)`. -/
  simSet : Sim → Model → Mat4 → Mat3 → ℚ → Vec3 → Bool → Sim
  /-- `Simulation::sweep()`. -/
  simSweep : Sim → Sim
  /-- `Simulation::slice()`. -/
  simSlice : Sim → Int
  /-- `Simulation::lift()`. -/
  simLift : Sim → Vec3
  /-- `Simulation::drag()`. -/
  simDrag : Sim → Vec3
  /-- `model.subModel(name)->localTransform(modelMat, normalMat)`. -/
  localTransform : Model → String → Mat4 → Mat3 → Model
  /-- `glm::rotate(mat4(), angle, axis)`. -/
  rotate : ℚ → Vec3 → Mat4
  /-- The conversion `mat3(m)` of a `mat4`. -/
  mat3 : Mat4 → Mat3
  /-- The product of scale, rotation by `glm::radians(-angleOfAttack)` and
  translation matrices that `setSimulation` builds in the case of the given
  `SimModel`. -/
  frameMat : SimModel → ℚ → Mat4
  /-- `glm::transpose(glm::inverse(m))`, stored as a `mat3`. -/
  transposeInverse : Mat4 → Mat3

/-- A call into namespace `Simulation` that configures or drives a sweep. -/
inductive Cmd (D : Deps) where
  | set (model : D.Model) (modelMat : D.Mat4) (normalMat : D.Mat3) (depth : ℚ)
      (centerOfGravity : Vec3) (debug : Bool)
  | sweep

/-- One entry of the trace: the call, and `Simulation::slice()` just before it. -/
structure Issued (D : Deps) where
  cmd : Cmd D
  sliceAt : Int

/-- The `static` variables of `main.cpp`, the engine behind `Simulation`, and the trace. -/
structure State (D : Deps) where
  sim : D.Sim
  model : D.Model
  modelMat : D.Mat4
  normalMat : D.Mat3
  centerOfGravity : Vec3
  vel : Vec3
  pos : Vec3
  lift : Vec3
  drag : Vec3
  angleOfAttack : ℚ
  aileronAngle : ℚ
  rudderAngle : ℚ
  elevatorAngle : ℚ
  shouldStep : Bool
  shouldSweep : Bool
  shouldAutoProgress : Bool
  issued : List (Issued D)

/-! ## Constants -/

def k_simModel : SimModel := SimModel.f18

def k_minAngleOfAttack : ℚ := -90
def k_maxAngleOfAttack : ℚ := 90
def k_minRudderAngle : ℚ := -90
def k_maxRudderAngle : ℚ := 90
def k_minAileronAngle : ℚ := -90
def k_maxAileronAngle : ℚ := 90
def k_minElevatorAngle : ℚ := -90
def k_maxElevatorAngle : ℚ := 90

/-- The granularity of angle of attack. -/
def k_angleOfAttackIncrement : ℚ := 1
/-- Degrees by which rudder, elevator and ailerons change on a key press. -/
def k_manualAngleIncrement : ℚ := 1
/-- Degrees by which the angle of attack changes when auto progressing. -/
def k_autoAngleIncrement : ℚ := 7

/-! Key codes, actions and modifier bits of `GLFW/glfw3.h`. -/

def GLFW_PRESS : Int := 1
def GLFW_REPEAT : Int := 2
def GLFW_MOD_SHIFT : Nat := 1
def GLFW_MOD_CONTROL : Nat := 2
def GLFW_KEY_SPACE : Int := 32
def GLFW_KEY_F : Int := 70
def GLFW_KEY_I : Int := 73
def GLFW_KEY_J : Int := 74
def GLFW_KEY_K : Int := 75
def GLFW_KEY_M : Int := 77
def GLFW_KEY_N : Int := 78
def GLFW_KEY_O : Int := 79
def GLFW_KEY_DOWN : Int := 264
def GLFW_KEY_UP : Int := 265

/-- The state at the end of `setup`: the initialisers of the `static` variables,
`s_pos = vec3(0)` and `s_vel = vec3(0)`; engine, model and stored matrices as given. -/
def initState (D : Deps) (sim : D.Sim) (model : D.Model) (m4 : D.Mat4) (m3 : D.Mat3) :
    State D where
  sim := sim
  model := model
  modelMat := m4
  normalMat := m3
  centerOfGravity := Vec3.zero
  vel := Vec3.zero
  pos := Vec3.zero
  lift := Vec3.zero
  drag := Vec3.zero
  angleOfAttack := 0
  aileronAngle := 0
  rudderAngle := 0
  elevatorAngle := 0
  shouldStep := false
  shouldSweep := true
  shouldAutoProgress := false
  issued := []

/-! ## Attitude -/

/-- `glm::clamp(x, minVal, maxVal)`, which is `min(max(x, minVal), maxVal)`. -/
def clamp (x minVal maxVal : ℚ) : ℚ := min (max x minVal) maxVal

/-- `changeAngleOfAttack(deltaAngle)`. -/
def changeAngleOfAttack {D : Deps} (deltaAngle : ℚ) (s : State D) : State D :=
  { s with angleOfAttack :=
      clamp (s.angleOfAttack + deltaAngle) (-k_maxAngleOfAttack) k_maxAngleOfAttack }

/-- `changeRudderAngle(deltaAngle)`. -/
def changeRudderAngle {D : Deps} (deltaAngle : ℚ) (s : State D) : State D :=
  let rudderAngle := clamp (s.rudderAngle + deltaAngle) (-k_maxRudderAngle) k_maxRudderAngle
  let modelMat := D.rotate rudderAngle ⟨0, 1, 0⟩
  let normalMat := D.mat3 modelMat
  let model := D.localTransform s.model "RudderL01" modelMat normalMat
  let model := D.localTransform model "RudderR01" modelMat normalMat
  { s with rudderAngle := rudderAngle, model := model }

/-- `changeAileronAngle(deltaAngle)`. -/
def changeAileronAngle {D : Deps} (deltaAngle : ℚ) (s : State D) : State D :=
  let aileronAngle :=
    clamp (s.aileronAngle + deltaAngle) (-k_maxAileronAngle) k_maxAileronAngle
  let modelMat := D.rotate aileronAngle ⟨1, 0, 0⟩
  let normalMat := D.mat3 modelMat
  let model := D.localTransform s.model "AileronL01" modelMat normalMat
  let modelMat := D.rotate (-aileronAngle) ⟨1, 0, 0⟩
  let normalMat := D.mat3 modelMat
  let model := D.localTransform model "AileronR01" modelMat normalMat
  { s with aileronAngle := aileronAngle, model := model }

/-- `changeElevatorAngle(deltaAngle)`. -/
def changeElevatorAngle {D : Deps} (deltaAngle : ℚ) (s : State D) : State D :=
  let elevatorAngle :=
    clamp (s.elevatorAngle + deltaAngle) (-k_maxElevatorAngle) k_maxElevatorAngle
  let modelMat := D.rotate elevatorAngle ⟨1, 0, 0⟩
  let normalMat := D.mat3 modelMat
  let model := D.localTransform s.model "ElevatorL01" modelMat normalMat
  let model := D.localTransform model "ElevatorR01" modelMat normalMat
  { s with elevatorAngle := elevatorAngle, model := model }

/-! ## Frame and sweeps -/

/-- The file-local `set(modelMat, normalMat, centerOfGravity)`. -/
def set {D : Deps} (modelMat : D.Mat4) (normalMat : D.Mat3) (centerOfGravity : Vec3)
    (s : State D) : State D :=
  { s with modelMat := modelMat, normalMat := normalMat, centerOfGravity := centerOfGravity }

/-- The reference depth `setSimulation` assigns in each case of its `switch`. -/
def depthOf : SimModel → ℚ
  | SimModel.airfoil => 1
  | SimModel.f18 => 2
  | SimModel.sphere => 1

/-- `setSimulation(angleOfAttack, debug)`. -/
def setSimulation {D : Deps} (angleOfAttack : ℚ) (debug : Bool) (s : State D) : State D :=
  let modelMat := D.frameMat k_simModel angleOfAttack
  let normalMat := D.transposeInverse modelMat
  let depth := depthOf k_simModel
  let centerOfGravity : Vec3 := ⟨0, 0, depth * (1 / 2)⟩
  let s1 : State D :=
    { s with
      sim := D.simSet s.sim s.model modelMat normalMat depth centerOfGravity debug
      issued := s.issued ++
        [⟨Cmd.set s.model modelMat normalMat depth centerOfGravity debug, D.simSlice s.sim⟩] }
  set modelMat normalMat centerOfGravity s1

/-- `doFastSweep(angleOfAttack)`. -/
def doFastSweep {D : Deps} (angleOfAttack : ℚ) (s : State D) : State D :=
  let s1 := setSimulation angleOfAttack false s
  let sim := D.simSweep s1.sim
  { s1 with
    sim := sim
    issued := s1.issued ++ [⟨Cmd.sweep, D.simSlice s1.sim⟩]
    lift := D.simLift sim
    drag := D.simDrag sim }

/-- The `for` loop of `doAllAngles`, entered with loop variable `angle`. -/
def doAllAnglesFrom {D : Deps} (angle : ℚ) (s : State D) : State D :=
  if angle ≤ k_maxAngleOfAttack then
    doAllAnglesFrom (angle + k_angleOfAttackIncrement) (doFastSweep angle s)
  else s
termination_by (⌊k_maxAngleOfAttack - angle⌋ + 1).toNat
decreasing_by
  rename_i h
  have h1 : (0 : ℤ) ≤ ⌊k_maxAngleOfAttack - angle⌋ := Int.floor_nonneg.mpr (by linarith)
  have h2 : ⌊k_maxAngleOfAttack - (angle + k_angleOfAttackIncrement)⌋
      = ⌊k_maxAngleOfAttack - angle⌋ - 1 := by
    rw [← Int.floor_sub_one]
    congr 1
    unfold k_angleOfAttackIncrement
    ring
  rw [h2]
  omega

/-- `doAllAngles()`. -/
def doAllAngles {D : Deps} (s : State D) : State D :=
  doAllAnglesFrom k_minAngleOfAttack s

/-! ## Input events and the per-frame update -/

/-- `keyCallback(window, key, scancode, action, mods)`; `window` and `scancode` are unused. -/
def keyCallback {D : Deps} (key action : Int) (mods : Nat) (s : State D) : State D :=
  if key = GLFW_KEY_SPACE ∧ (action = GLFW_PRESS ∨ action = GLFW_REPEAT) ∧ mods = 0 then
    { s with shouldStep := true, shouldSweep := false, shouldAutoProgress := false }
  else if key = GLFW_KEY_SPACE ∧ action = GLFW_PRESS ∧ mods &&& GLFW_MOD_SHIFT ≠ 0 then
    { s with shouldSweep := true }
  else if key = GLFW_KEY_SPACE ∧ action = GLFW_PRESS ∧ mods &&& GLFW_MOD_CONTROL ≠ 0 then
    { s with shouldAutoProgress := !s.shouldAutoProgress }
  else if key = GLFW_KEY_F ∧ action = GLFW_PRESS ∧ mods = 0 then
    if D.simSlice s.sim = 0 ∧ s.shouldAutoProgress = false then
      doFastSweep s.angleOfAttack s
    else s
  else if key = GLFW_KEY_F ∧ action = GLFW_PRESS ∧ mods = GLFW_MOD_SHIFT then
    if D.simSlice s.sim = 0 ∧ s.shouldAutoProgress = false then
      doAllAngles s
    else s
  else if key = GLFW_KEY_UP ∧ (action = GLFW_PRESS ∨ action = GLFW_REPEAT) ∧ mods = 0 then
    if D.simSlice s.sim = 0 ∧ s.shouldAutoProgress = false then
      changeAngleOfAttack k_angleOfAttackIncrement s
    else s
  else if key = GLFW_KEY_DOWN ∧ (action = GLFW_PRESS ∨ action = GLFW_REPEAT) ∧ mods = 0 then
    if D.simSlice s.sim = 0 ∧ s.shouldAutoProgress = false then
      changeAngleOfAttack (-k_angleOfAttackIncrement) s
    else s
  else if key = GLFW_KEY_O ∧ (action = GLFW_PRESS ∨ action = GLFW_REPEAT) ∧ mods = 0 then
    if D.simSlice s.sim = 0 then changeRudderAngle k_manualAngleIncrement s else s
  else if key = GLFW_KEY_I ∧ (action = GLFW_PRESS ∨ action = GLFW_REPEAT) ∧ mods = 0 then
    if D.simSlice s.sim = 0 then changeRudderAngle (-k_manualAngleIncrement) s else s
  else if key = GLFW_KEY_K ∧ (action = GLFW_PRESS ∨ action = GLFW_REPEAT) ∧ mods = 0 then
    if D.simSlice s.sim = 0 then changeElevatorAngle k_manualAngleIncrement s else s
  else if key = GLFW_KEY_J ∧ (action = GLFW_PRESS ∨ action = GLFW_REPEAT) ∧ mods = 0 then
    if D.simSlice s.sim = 0 then changeElevatorAngle (-k_manualAngleIncrement) s else s
  else if key = GLFW_KEY_M ∧ (action = GLFW_PRESS ∨ action = GLFW_REPEAT) ∧ mods = 0 then
    if D.simSlice s.sim = 0 then changeAileronAngle k_manualAngleIncrement s else s
  else if key = GLFW_KEY_N ∧ (action = GLFW_PRESS ∨ action = GLFW_REPEAT) ∧ mods = 0 then
    if D.simSlice s.sim = 0 then changeAileronAngle (-k_manualAngleIncrement) s else s
  else s

/-- `update()`. -/
def update {D : Deps} (s : State D) : State D :=
  let s1 := doFastSweep s.angleOfAttack s
  let cumForce := Vec3.neg s1.lift
  let acc := cumForce.sdiv 10000
  let vel := s1.vel.add acc
  { s1 with vel := vel, pos := s1.pos.add vel }

/-- What the main loop does one at a time: deliver a key event (from
`glfwPollEvents`) or run `update` for the frame. -/
inductive Event where
  | key (key action : Int) (mods : Nat)
  | frame

/-- Handling of one event. -/
def step {D : Deps} (e : Event) (s : State D) : State D :=
  match e with
  | Event.key k a m => keyCallback k a m s
  | Event.frame => update s

/-- Handling of a sequence of events, first to last. -/
def run {D : Deps} (es : List Event) (s : State D) : State D :=
  es.foldl (fun t e => step e t) s

/-! ## Vocabulary of the statements -/

/-- The four angles of the attitude. -/
inductive Channel where
  | angleOfAttack
  | rudder
  | aileron
  | elevator
deriving DecidableEq, Repr

/-- The stored angle of a channel. -/
def angle {D : Deps} (ch : Channel) (s : State D) : ℚ :=
  match ch with
  | Channel.angleOfAttack => s.angleOfAttack
  | Channel.rudder => s.rudderAngle
  | Channel.aileron => s.aileronAngle
  | Channel.elevator => s.elevatorAngle

/-- The adjust call of a channel. -/
def adjust {D : Deps} (ch : Channel) (deltaAngle : ℚ) (s : State D) : State D :=
  match ch with
  | Channel.angleOfAttack => changeAngleOfAttack deltaAngle s
  | Channel.rudder => changeRudderAngle deltaAngle s
  | Channel.aileron => changeAileronAngle deltaAngle s
  | Channel.elevator => changeElevatorAngle deltaAngle s

/-- A sequence of adjust calls, first to last. -/
def runAdjust {D : Deps} (calls : List (Channel × ℚ)) (s : State D) : State D :=
  calls.foldl (fun t c => adjust c.1 c.2 t) s

/-- An engine that is always idle and always reports lift `(0, 10000, 0)` and
drag `(1, 0, 0)`; matrices are stood for by the angle they were built from. -/
def demoDeps : Deps where
  Sim := ℚ
  Model := Unit
  Mat4 := ℚ
  Mat3 := ℚ
  simSet := fun _ _ m _ _ _ _ => m
  simSweep := fun σ => σ
  simSlice := fun _ => 0
  simLift := fun _ => ⟨0, 10000, 0⟩
  simDrag := fun _ => ⟨1, 0, 0⟩
  localTransform := fun m _ _ _ => m
  rotate := fun a _ => a
  mat3 := fun m => m
  frameMat := fun _ a => a
  transposeInverse := fun m => m

/-- The state after `setup` over `demoDeps`. -/
def demoInit : State demoDeps := initState demoDeps (0 : ℚ) () (0 : ℚ) (0 : ℚ)

/-- The state `demoInit` with auto progress switched on. -/
def demoAuto : State demoDeps := { demoInit with shouldAutoProgress := true }

/-- The state `demoInit` with no intent pending: step, sweep and auto progress all off. -/
def demoNoIntent : State demoDeps := { demoInit with shouldSweep := false }

/-- The state `demoInit` with only the step intent pending. -/
def demoStepIntent : State demoDeps :=
  { demoInit with shouldStep := true, shouldSweep := false }

/-- Every angle is inside its range. -/
def InRange {D : Deps} (s : State D) : Prop :=
  ∀ ch : Channel, -90 ≤ angle ch s ∧ angle ch s ≤ 90

/-- Modelled from the spec: the source of namespace `Simulation` is not part of
`src/`; this is the part of its contract (section 6) that the statements below
rely on.  `runToCompletion` "advances until internal progress reaches
completion" and slice index 0 "means idle/complete", so the slice index is 0
when `sweep` returns; `configure` "replaces any prior configuration" and
"invalidates any in-flight slice progress", so it leaves an idle engine idle. -/
def EngineContract (D : Deps) : Prop :=
  (∀ σ : D.Sim, D.simSlice (D.simSweep σ) = 0) ∧
  (∀ (σ : D.Sim) (model : D.Model) (m4 : D.Mat4) (m3 : D.Mat3) (depth : ℚ) (c : Vec3)
      (debug : Bool), D.simSlice σ = 0 → D.simSlice (D.simSet σ model m4 m3 depth c debug) = 0)

/-- The engine is idle and every call in the trace was made at slice index 0. -/
def Quiet {D : Deps} (s : State D) : Prop :=
  D.simSlice s.sim = 0 ∧ ∀ e ∈ s.issued, e.sliceAt = 0

/-- The angles -90, -89, ..., 90: start at `k_minAngleOfAttack`, 181 values in
steps of `k_angleOfAttackIncrement`. -/
def allAngles : List ℚ :=
  (List.range 181).map (fun k : ℕ => k_minAngleOfAttack + k * k_angleOfAttackIncrement)

/-- Fast sweeps at the given angles, first to last. -/
def sweepEach {D : Deps} (angles : List ℚ) (s : State D) : State D :=
  angles.foldl (fun t a => doFastSweep a t) s

/-- The angles -90, -83, ..., 85 and then 90: steps of `k_autoAngleIncrement`
from the minimum, closed by the maximum. -/
def sevenDegreeAngles : List ℚ :=
  (List.range 26).map (fun k : ℕ => k_minAngleOfAttack + k * k_autoAngleIncrement) ++
    [k_maxAngleOfAttack]

/-- Over `demoDeps` a model matrix is the angle it was built from: the angles of
the `Simulation::set` calls of a trace, in order. -/
def sweptAngles : List (Issued demoDeps) → List ℚ
  | [] => []
  | ⟨Cmd.set _ m _ _ _ _, _⟩ :: es => m :: sweptAngles es
  | ⟨Cmd.sweep, _⟩ :: es => sweptAngles es

/-- The calls of a trace, without the slice indices. -/
def callsOf {D : Deps} (s : State D) : List (Cmd D) := s.issued.map (fun e => e.cmd)

/-! ## Clamping -/

theorem clamp_ge (x : ℚ) {lo hi : ℚ} (h : lo ≤ hi) : lo ≤ clamp x lo hi := by
  unfold clamp
  exact le_min (le_max_right x lo) h

theorem clamp_le (x lo hi : ℚ) : clamp x lo hi ≤ hi := by
  unfold clamp
  exact min_le_right _ _

theorem clamp_at_max {x d : ℚ} (hx : x = 90) (hd : 0 ≤ d) : clamp (x + d) (-90) 90 = 90 := by
  unfold clamp
  rw [max_eq_left (by linarith), min_eq_right (by linarith)]

theorem clamp_at_min {x d : ℚ} (hx : x = -90) (hd : d ≤ 0) :
    clamp (x + d) (-90) 90 = -90 := by
  unfold clamp
  rw [max_eq_right (by linarith), min_eq_left (by norm_num)]

theorem angle_adjust_same {D : Deps} (ch : Channel) (d : ℚ) (s : State D) :
    angle ch (adjust ch d s) = clamp (angle ch s + d) (-90) 90 := by
  cases ch <;>
    simp [angle, adjust, changeAngleOfAttack, changeRudderAngle, changeAileronAngle,
      changeElevatorAngle, k_maxAngleOfAttack, k_maxRudderAngle, k_maxAileronAngle,
      k_maxElevatorAngle]

theorem angle_adjust_other {D : Deps} {ch ch' : Channel} (h : ch ≠ ch') (d : ℚ)
    (s : State D) : angle ch (adjust ch' d s) = angle ch s := by
  cases ch <;> cases ch' <;>
    first
      | exact absurd rfl h
      | simp [angle, adjust, changeAngleOfAttack, changeRudderAngle, changeAileronAngle,
          changeElevatorAngle]

theorem inRange_adjust {D : Deps} (ch : Channel) (d : ℚ) {s : State D} (h : InRange s) :
    InRange (adjust ch d s) := by
  intro ch'
  by_cases e : ch' = ch
  · subst e
    rw [angle_adjust_same]
    exact ⟨clamp_ge _ (by norm_num), clamp_le _ _ _⟩
  · rw [angle_adjust_other e]
    exact h ch'

theorem inRange_runAdjust {D : Deps} (calls : List (Channel × ℚ)) :
    ∀ {s : State D}, InRange s → InRange (runAdjust calls s) := by
  induction calls with
  | nil => intro s h; exact h
  | cons c cs ih =>
    intro s h
    exact ih (inRange_adjust c.1 c.2 h)

theorem inRange_initState (D : Deps) (sim : D.Sim) (model : D.Model) (m4 : D.Mat4)
    (m3 : D.Mat3) : InRange (initState D sim model m4 m3) := by
  intro ch
  cases ch <;> simp [angle, initState]

/-- C1: starting from the initial state (all four angles 0), after any finite
sequence of adjust calls on any channels with any deltas every angle lies in
[-90, 90]; and an angle that sits at +90 (at -90) is left unchanged by a further
adjust of its channel with a delta that is not negative (not positive). -/
theorem adjust_calls_stay_in_range (D : Deps) (sim : D.Sim) (model : D.Model)
    (m4 : D.Mat4) (m3 : D.Mat3) (calls : List (Channel × ℚ)) :
    (∀ ch : Channel,
        -90 ≤ angle ch (runAdjust calls (initState D sim model m4 m3)) ∧
        angle ch (runAdjust calls (initState D sim model m4 m3)) ≤ 90) ∧
    (∀ (ch : Channel) (d : ℚ),
        angle ch (runAdjust calls (initState D sim model m4 m3)) = 90 → 0 ≤ d →
        angle ch (adjust ch d (runAdjust calls (initState D sim model m4 m3))) = 90) ∧
    (∀ (ch : Channel) (d : ℚ),
        angle ch (runAdjust calls (initState D sim model m4 m3)) = -90 → d ≤ 0 →
        angle ch (adjust ch d (runAdjust calls (initState D sim model m4 m3))) = -90) := by
  refine ⟨inRange_runAdjust calls (inRange_initState D sim model m4 m3), ?_, ?_⟩
  · intro ch d hx hd
    rw [angle_adjust_same]
    exact clamp_at_max hx hd
  · intro ch d hx hd
    rw [angle_adjust_same]
    exact clamp_at_min hx hd

/-- C1 at a concrete run: a delta of +100 on the angle of attack and of -200 on
the rudder saturate at +90 and -90, and further deltas of +5 and -5 leave them there. -/
theorem adjust_calls_stay_in_range_witness :
    angle Channel.angleOfAttack
      (runAdjust [(Channel.angleOfAttack, 100), (Channel.rudder, -200)] demoInit) = 90 ∧
    angle Channel.angleOfAttack (adjust Channel.angleOfAttack 5
      (runAdjust [(Channel.angleOfAttack, 100), (Channel.rudder, -200)] demoInit)) = 90 ∧
    angle Channel.rudder
      (runAdjust [(Channel.angleOfAttack, 100), (Channel.rudder, -200)] demoInit) = -90 ∧
    angle Channel.rudder (adjust Channel.rudder (-5)
      (runAdjust [(Channel.angleOfAttack, 100), (Channel.rudder, -200)] demoInit)) = -90 := by
  have h := adjust_calls_stay_in_range demoDeps (0 : ℚ) () (0 : ℚ) (0 : ℚ)
    [(Channel.angleOfAttack, 100), (Channel.rudder, -200)]
  have h1 : angle Channel.angleOfAttack
      (runAdjust [(Channel.angleOfAttack, 100), (Channel.rudder, -200)] demoInit) = 90 := by
    norm_num [runAdjust, adjust, angle, changeAngleOfAttack, changeRudderAngle, clamp,
      demoInit, initState, k_maxAngleOfAttack]
  have h2 : angle Channel.rudder
      (runAdjust [(Channel.angleOfAttack, 100), (Channel.rudder, -200)] demoInit) = -90 := by
    norm_num [runAdjust, adjust, angle, changeAngleOfAttack, changeRudderAngle, clamp,
      demoInit, initState, k_maxRudderAngle]
  exact ⟨h1, h.2.1 Channel.angleOfAttack 5 h1 (by norm_num), h2,
    h.2.2 Channel.rudder (-5) h2 (by norm_num)⟩

/-! ## Repeated angle-of-attack increments -/

theorem angleOfAttack_iterate (D : Deps) (s : State D) (h : s.angleOfAttack = 0) (k : ℕ) :
    ((changeAngleOfAttack k_angleOfAttackIncrement)^[k] s).angleOfAttack
      = min (k : ℚ) 90 := by
  induction k with
  | zero => simp [h]
  | succ n ih =>
    rw [Function.iterate_succ_apply']
    show clamp (((changeAngleOfAttack k_angleOfAttackIncrement)^[n] s).angleOfAttack
      + k_angleOfAttackIncrement) (-k_maxAngleOfAttack) k_maxAngleOfAttack = _
    rw [ih]
    simp only [clamp, k_maxAngleOfAttack, k_angleOfAttackIncrement]
    have hn : (0 : ℚ) ≤ n := Nat.cast_nonneg n
    push_cast
    rcases le_total (n : ℚ) 90 with h1 | h1
    · rw [min_eq_left h1, max_eq_left (by linarith)]
    · rw [min_eq_right h1, max_eq_left (by norm_num), min_eq_right (by norm_num),
        min_eq_right (by linarith)]

/-- C2: from angle of attack 0, `k` calls of
`changeAngleOfAttack(k_angleOfAttackIncrement)` give angle of attack `min(k, 90)`,
for every natural `k`; ninety-one calls give 90, not 91. -/
theorem angleOfAttack_after_increments (D : Deps) (sim : D.Sim) (model : D.Model)
    (m4 : D.Mat4) (m3 : D.Mat3) :
    (∀ k : ℕ,
      ((changeAngleOfAttack k_angleOfAttackIncrement)^[k]
        (initState D sim model m4 m3)).angleOfAttack = min (k : ℚ) 90) ∧
    ((changeAngleOfAttack k_angleOfAttackIncrement)^[91]
        (initState D sim model m4 m3)).angleOfAttack = 90 ∧
    ((changeAngleOfAttack k_angleOfAttackIncrement)^[91]
        (initState D sim model m4 m3)).angleOfAttack ≠ 91 := by
  have key := angleOfAttack_iterate D (initState D sim model m4 m3) rfl
  refine ⟨key, ?_, ?_⟩
  · rw [key 91]; norm_num
  · rw [key 91]; norm_num

/-! ## Force integration -/

theorem update_vel {D : Deps} (s : State D) :
    (update s).vel = s.vel.add ((Vec3.neg (D.simLift (D.simSweep
      (setSimulation s.angleOfAttack false s).sim))).sdiv 10000) := rfl

theorem update_pos {D : Deps} (s : State D) :
    (update s).pos = s.pos.add (update s).vel := rfl

/-- C3: if every sweep of the engine yields the same lift `L` (whatever drag
it yields) and velocity and position are zero, then after `N` calls of `update`
the velocity is `N * (-L / 10000)` and the position is
`N * (N + 1) / 2 * (-L / 10000)`, componentwise, for every natural `N`. -/
theorem update_constant_force (D : Deps) (L : Vec3)
    (hL : ∀ σ : D.Sim, D.simLift (D.simSweep σ) = L) (s : State D)
    (hv : s.vel = Vec3.zero) (hp : s.pos = Vec3.zero) (N : ℕ) :
    (update^[N] s).vel = Vec3.smul N ((Vec3.neg L).sdiv 10000) ∧
    (update^[N] s).pos = Vec3.smul ((N : ℚ) * (N + 1) / 2) ((Vec3.neg L).sdiv 10000) := by
  induction N with
  | zero => simp [hv, hp, Vec3.smul, Vec3.zero]
  | succ n ih =>
    rw [Function.iterate_succ_apply']
    have hvel : (update (update^[n] s)).vel
        = Vec3.smul ((n : ℚ) + 1) ((Vec3.neg L).sdiv 10000) := by
      rw [update_vel, hL, ih.1]
      simp only [Vec3.smul, Vec3.add, Vec3.sdiv, Vec3.neg, Vec3.mk.injEq]
      refine ⟨?_, ?_, ?_⟩ <;> ring
    refine ⟨by rw [hvel]; push_cast; rfl, ?_⟩
    rw [update_pos, hvel, ih.2]
    simp only [Vec3.smul, Vec3.add, Vec3.sdiv, Vec3.neg, Vec3.mk.injEq]
    push_cast
    refine ⟨?_, ?_, ?_⟩ <;> ring

/-- C3 at a concrete run: with lift (0, 10000, 0) on every sweep, three updates
from rest give velocity (0, -3, 0) and position (0, -6, 0). -/
theorem update_constant_force_witness :
    (∀ σ : demoDeps.Sim, demoDeps.simLift (demoDeps.simSweep σ) = ⟨0, 10000, 0⟩) ∧
    demoInit.vel = Vec3.zero ∧ demoInit.pos = Vec3.zero ∧
    (update^[3] demoInit).vel = ⟨0, -3, 0⟩ ∧ (update^[3] demoInit).pos = ⟨0, -6, 0⟩ := by
  have h := update_constant_force demoDeps ⟨0, 10000, 0⟩ (fun _ => rfl) demoInit rfl rfl 3
  refine ⟨fun _ => rfl, rfl, rfl, ?_, ?_⟩
  · rw [h.1]; norm_num [Vec3.smul, Vec3.sdiv, Vec3.neg]
  · rw [h.2]; norm_num [Vec3.smul, Vec3.sdiv, Vec3.neg]

/-! ## Key events -/

theorem keyCallback_space_press {D : Deps} (s : State D) :
    keyCallback GLFW_KEY_SPACE GLFW_PRESS 0 s
      = { s with shouldStep := true, shouldSweep := false, shouldAutoProgress := false } := by
  simp [keyCallback, GLFW_PRESS]

theorem keyCallback_space_repeat {D : Deps} (s : State D) :
    keyCallback GLFW_KEY_SPACE GLFW_REPEAT 0 s
      = { s with shouldStep := true, shouldSweep := false, shouldAutoProgress := false } := by
  simp [keyCallback, GLFW_REPEAT]

theorem keyCallback_F {D : Deps} (s : State D) :
    keyCallback GLFW_KEY_F GLFW_PRESS 0 s
      = if D.simSlice s.sim = 0 ∧ s.shouldAutoProgress = false then
          doFastSweep s.angleOfAttack s
        else s := by
  simp [keyCallback, GLFW_KEY_F, GLFW_KEY_SPACE]

theorem keyCallback_shift_F {D : Deps} (s : State D) :
    keyCallback GLFW_KEY_F GLFW_PRESS GLFW_MOD_SHIFT s
      = if D.simSlice s.sim = 0 ∧ s.shouldAutoProgress = false then doAllAngles s
        else s := by
  simp [keyCallback, GLFW_KEY_F, GLFW_KEY_SPACE, GLFW_MOD_SHIFT]

theorem gate_closed {D : Deps} {s : State D}
    (h : D.simSlice s.sim ≠ 0 ∨ s.shouldAutoProgress = true) :
    ¬ (D.simSlice s.sim = 0 ∧ s.shouldAutoProgress = false) := by
  rintro ⟨h0, h1⟩
  rcases h with h | h
  · exact h h0
  · rw [h1] at h
    exact Bool.noConfusion h

/-- C7: in every state in which the engine's slice index is nonzero or auto
progress is on, the fast single-angle sweep request (F) and the fast all-angles
sweep request (Shift-F) leave the whole state as it is: engine, trace of engine
calls (no `set`, no `sweep`), force sample, stored frame, angles and mode flags.
With slice index 0 and auto progress off they take effect: F is `doFastSweep`
at the current angle of attack and Shift-F is `doAllAngles`. -/
theorem fast_sweep_requests_gated (D : Deps) (s : State D) :
    (D.simSlice s.sim ≠ 0 ∨ s.shouldAutoProgress = true →
      keyCallback GLFW_KEY_F GLFW_PRESS 0 s = s ∧
      keyCallback GLFW_KEY_F GLFW_PRESS GLFW_MOD_SHIFT s = s) ∧
    (D.simSlice s.sim = 0 ∧ s.shouldAutoProgress = false →
      keyCallback GLFW_KEY_F GLFW_PRESS 0 s = doFastSweep s.angleOfAttack s ∧
      keyCallback GLFW_KEY_F GLFW_PRESS GLFW_MOD_SHIFT s = doAllAngles s) := by
  refine ⟨fun h => ?_, fun h => ?_⟩
  · rw [keyCallback_F, keyCallback_shift_F, if_neg (gate_closed h), if_neg (gate_closed h)]
    exact ⟨rfl, rfl⟩
  · rw [keyCallback_F, keyCallback_shift_F, if_pos h, if_pos h]
    exact ⟨rfl, rfl⟩

/-- C7 at concrete states: with auto progress on, F and Shift-F change nothing;
in the initial state, engine idle and auto progress off, F makes a fast sweep. -/
theorem fast_sweep_requests_gated_witness :
    (demoDeps.simSlice demoAuto.sim ≠ 0 ∨ demoAuto.shouldAutoProgress = true) ∧
    keyCallback GLFW_KEY_F GLFW_PRESS 0 demoAuto = demoAuto ∧
    keyCallback GLFW_KEY_F GLFW_PRESS GLFW_MOD_SHIFT demoAuto = demoAuto ∧
    (demoDeps.simSlice demoInit.sim = 0 ∧ demoInit.shouldAutoProgress = false) ∧
    keyCallback GLFW_KEY_F GLFW_PRESS 0 demoInit = doFastSweep demoInit.angleOfAttack demoInit :=
  ⟨Or.inr rfl,
    ((fast_sweep_requests_gated demoDeps demoAuto).1 (Or.inr rfl)).1,
    ((fast_sweep_requests_gated demoDeps demoAuto).1 (Or.inr rfl)).2,
    ⟨rfl, rfl⟩,
    ((fast_sweep_requests_gated demoDeps demoInit).2 ⟨rfl, rfl⟩).1⟩

/-- C6, as the code has it: an unmodified space press or repeat is never
ignored.  Whatever the auto-progress flag and the slice index are, it sets the
step intent, clears the sweep intent and switches auto progress off, and it
changes nothing else. -/
theorem single_step_request_always_taken (D : Deps) (s : State D) :
    keyCallback GLFW_KEY_SPACE GLFW_PRESS 0 s
      = { s with shouldStep := true, shouldSweep := false, shouldAutoProgress := false } ∧
    keyCallback GLFW_KEY_SPACE GLFW_REPEAT 0 s
      = { s with shouldStep := true, shouldSweep := false, shouldAutoProgress := false } :=
  ⟨keyCallback_space_press s, keyCallback_space_repeat s⟩

/-- C6 fails: with auto progress on, a space press is not ignored; it switches
auto progress off and sets the step intent. -/
theorem single_step_request_not_ignored :
    demoAuto.shouldAutoProgress = true ∧
    (keyCallback GLFW_KEY_SPACE GLFW_PRESS 0 demoAuto).shouldAutoProgress = false ∧
    (keyCallback GLFW_KEY_SPACE GLFW_PRESS 0 demoAuto).shouldStep = true ∧
    demoAuto.shouldStep = false ∧
    keyCallback GLFW_KEY_SPACE GLFW_PRESS 0 demoAuto ≠ demoAuto := by
  refine ⟨rfl, ?_, ?_, rfl, ?_⟩
  · rw [keyCallback_space_press]
  · rw [keyCallback_space_press]
  · rw [keyCallback_space_press]
    intro h
    have h2 := congrArg State.shouldAutoProgress h
    exact Bool.noConfusion h2

/-! ## Sweeps -/

theorem doFastSweep_issued {D : Deps} (a : ℚ) (s : State D) :
    (doFastSweep a s).issued = s.issued ++
      [⟨Cmd.set s.model (D.frameMat k_simModel a)
          (D.transposeInverse (D.frameMat k_simModel a)) (depthOf k_simModel)
          ⟨0, 0, depthOf k_simModel * (1 / 2)⟩ false, D.simSlice s.sim⟩,
       ⟨Cmd.sweep, D.simSlice (D.simSet s.sim s.model (D.frameMat k_simModel a)
          (D.transposeInverse (D.frameMat k_simModel a)) (depthOf k_simModel)
          ⟨0, 0, depthOf k_simModel * (1 / 2)⟩ false)⟩] := by
  simp [doFastSweep, setSimulation, set]

theorem doFastSweep_sim {D : Deps} (a : ℚ) (s : State D) :
    (doFastSweep a s).sim = D.simSweep (D.simSet s.sim s.model (D.frameMat k_simModel a)
      (D.transposeInverse (D.frameMat k_simModel a)) (depthOf k_simModel)
      ⟨0, 0, depthOf k_simModel * (1 / 2)⟩ false) := rfl

theorem doFastSweep_sample {D : Deps} (a : ℚ) (s : State D) :
    (doFastSweep a s).lift = D.simLift (doFastSweep a s).sim ∧
    (doFastSweep a s).drag = D.simDrag (doFastSweep a s).sim := ⟨rfl, rfl⟩

theorem doFastSweep_flags {D : Deps} (a : ℚ) (s : State D) :
    (doFastSweep a s).shouldStep = s.shouldStep ∧
    (doFastSweep a s).shouldSweep = s.shouldSweep ∧
    (doFastSweep a s).shouldAutoProgress = s.shouldAutoProgress := ⟨rfl, rfl, rfl⟩

theorem doAllAnglesFrom_unfold {D : Deps} (a : ℚ) (s : State D) :
    doAllAnglesFrom a s
      = if a ≤ k_maxAngleOfAttack then
          doAllAnglesFrom (a + k_angleOfAttackIncrement) (doFastSweep a s)
        else s := by
  conv_lhs => unfold doAllAnglesFrom

theorem doAllAnglesFrom_eq_sweepEach {D : Deps} (n : ℕ) :
    ∀ (a : ℚ) (s : State D), a = k_maxAngleOfAttack - n →
      doAllAnglesFrom a s
        = sweepEach ((List.range (n + 1)).map
            (fun k : ℕ => a + k * k_angleOfAttackIncrement)) s := by
  induction n with
  | zero =>
    intro a s ha
    have h1 : a ≤ k_maxAngleOfAttack := by rw [ha]; simp
    have h2 : ¬ (a + k_angleOfAttackIncrement ≤ k_maxAngleOfAttack) := by
      rw [ha]; simp [k_angleOfAttackIncrement]
    rw [doAllAnglesFrom_unfold, if_pos h1, doAllAnglesFrom_unfold, if_neg h2]
    simp [sweepEach, List.range_succ]
  | succ m ih =>
    intro a s ha
    have h1 : a ≤ k_maxAngleOfAttack := by
      rw [ha]
      have : (0 : ℚ) ≤ ((m + 1 : ℕ) : ℚ) := Nat.cast_nonneg _
      linarith
    have h2 : a + k_angleOfAttackIncrement = k_maxAngleOfAttack - m := by
      rw [ha]; simp only [k_angleOfAttackIncrement]; push_cast; ring
    rw [doAllAnglesFrom_unfold, if_pos h1, ih _ _ h2]
    rw [List.range_succ_eq_map (m + 1)]
    simp only [sweepEach, List.map_cons, List.foldl_cons, List.map_map]
    congr 1
    · simp
    · apply List.map_congr_left
      intro k _
      simp only [Function.comp, k_angleOfAttackIncrement]
      push_cast
      ring

theorem doAllAngles_eq_sweepEach {D : Deps} (s : State D) :
    doAllAngles s = sweepEach allAngles s := by
  unfold doAllAngles allAngles
  exact doAllAnglesFrom_eq_sweepEach 180 k_minAngleOfAttack s
    (by norm_num [k_minAngleOfAttack, k_maxAngleOfAttack])

theorem sweepEach_snoc {D : Deps} (l : List ℚ) (a : ℚ) (s : State D) :
    sweepEach (l ++ [a]) s = doFastSweep a (sweepEach l s) := by
  simp [sweepEach, List.foldl_append]

theorem allAngles_length : allAngles.length = 181 := by
  simp [allAngles]

theorem allAngles_eq : allAngles = (List.range 181).map (fun k : ℕ => (-90 : ℚ) + k) := by
  simp [allAngles, k_minAngleOfAttack, k_angleOfAttackIncrement]

theorem sweepEach_sample {D : Deps} (l : List ℚ) (hl : l ≠ []) (s : State D) :
    (sweepEach l s).lift = D.simLift (sweepEach l s).sim ∧
    (sweepEach l s).drag = D.simDrag (sweepEach l s).sim := by
  rcases List.eq_nil_or_concat l with h | ⟨l1, a, h⟩
  · exact absurd h hl
  · rw [h, List.concat_eq_append, sweepEach_snoc]
    exact doFastSweep_sample a _

theorem sweepEach_idle {D : Deps} (hS : ∀ σ : D.Sim, D.simSlice (D.simSweep σ) = 0)
    (l : List ℚ) (hl : l ≠ []) (s : State D) : D.simSlice (sweepEach l s).sim = 0 := by
  rcases List.eq_nil_or_concat l with h | ⟨l1, a, h⟩
  · exact absurd h hl
  · rw [h, List.concat_eq_append, sweepEach_snoc, doFastSweep_sim]
    exact hS _

theorem sweepEach_flags {D : Deps} (l : List ℚ) :
    ∀ s : State D, (sweepEach l s).shouldSweep = s.shouldSweep := by
  induction l with
  | nil => intro s; rfl
  | cons a l ih =>
    intro s
    show (sweepEach l (doFastSweep a s)).shouldSweep = s.shouldSweep
    rw [ih]
    rfl

theorem allAngles_take_ne_nil (n : ℕ) : allAngles.take (n + 1) ≠ [] := by
  intro h
  have h2 := congrArg List.length h
  rw [List.length_take, allAngles_length] at h2
  simp at h2

theorem allAngles_ne_nil : allAngles ≠ [] := by
  intro h
  have h2 := congrArg List.length h
  rw [allAngles_length] at h2
  simp at h2

/-- C4, as the code has it: `doAllAngles` performs its fast sweeps at the angles
-90, -89, ..., 90, in steps of `k_angleOfAttackIncrement` = 1 degree: 181
sweeps, the first at -90 and the last at exactly +90.  After each iteration the
stored force sample is the lift and drag the engine reports for that sweep, and
when the engine's `sweep` returns at slice index 0 the slice index is 0 after
each iteration. -/
theorem doAllAngles_sweeps_every_degree (D : Deps) (s : State D) :
    doAllAngles s = sweepEach allAngles s ∧
    allAngles = (List.range 181).map (fun k : ℕ => (-90 : ℚ) + k) ∧
    allAngles.length = 181 ∧
    (∀ n : ℕ,
      (sweepEach (allAngles.take (n + 1)) s).lift
        = D.simLift (sweepEach (allAngles.take (n + 1)) s).sim ∧
      (sweepEach (allAngles.take (n + 1)) s).drag
        = D.simDrag (sweepEach (allAngles.take (n + 1)) s).sim) ∧
    ((∀ σ : D.Sim, D.simSlice (D.simSweep σ) = 0) →
      ∀ n : ℕ, D.simSlice (sweepEach (allAngles.take (n + 1)) s).sim = 0) :=
  ⟨doAllAngles_eq_sweepEach s, allAngles_eq, allAngles_length,
    fun n => sweepEach_sample _ (allAngles_take_ne_nil n) s,
    fun hS n => sweepEach_idle hS _ (allAngles_take_ne_nil n) s⟩

/-- C4 at a concrete run: over the always-idle engine, from the initial state,
the slice index is 0 after the third iteration. -/
theorem doAllAngles_sweeps_every_degree_witness :
    doAllAngles demoInit = sweepEach allAngles demoInit ∧
    (∀ σ : demoDeps.Sim, demoDeps.simSlice (demoDeps.simSweep σ) = 0) ∧
    demoDeps.simSlice (sweepEach (allAngles.take (2 + 1)) demoInit).sim = 0 :=
  ⟨(doAllAngles_sweeps_every_degree demoDeps demoInit).1, fun _ => rfl,
    (doAllAngles_sweeps_every_degree demoDeps demoInit).2.2.2.2 (fun _ => rfl) 2⟩

theorem sweptAngles_append (l1 l2 : List (Issued demoDeps)) :
    sweptAngles (l1 ++ l2) = sweptAngles l1 ++ sweptAngles l2 := by
  induction l1 with
  | nil => rfl
  | cons e es ih =>
    rcases e with ⟨c, i⟩
    cases c <;> simp [sweptAngles, ih]

theorem sweptAngles_sweepEach (l : List ℚ) :
    ∀ s : State demoDeps,
      sweptAngles (sweepEach l s).issued = sweptAngles s.issued ++ l := by
  induction l with
  | nil => intro s; simp [sweepEach]
  | cons a l ih =>
    intro s
    show sweptAngles (sweepEach l (doFastSweep a s)).issued = _
    rw [ih, doFastSweep_issued, sweptAngles_append]
    simp [sweptAngles, demoDeps]

/-- C4 fails: from the initial state `doAllAngles` does not sweep the angles
-90, -83, ..., 85, 90; it makes 181 sweeps where that list has 27 angles. -/
theorem doAllAngles_not_seven_degree_steps :
    sweptAngles (doAllAngles demoInit).issued ≠ sevenDegreeAngles ∧
    (sweptAngles (doAllAngles demoInit).issued).length = 181 ∧
    sevenDegreeAngles.length = 27 := by
  have h : sweptAngles (doAllAngles demoInit).issued = allAngles := by
    rw [doAllAngles_eq_sweepEach, sweptAngles_sweepEach]
    rfl
  have h7 : sevenDegreeAngles.length = 27 := by simp [sevenDegreeAngles]
  refine ⟨?_, by rw [h, allAngles_length], h7⟩
  intro e
  have e2 := congrArg List.length e
  rw [h, allAngles_length, h7] at e2
  exact absurd e2 (by decide)

/-! ## Completion of a sweep -/

theorem update_flags {D : Deps} (s : State D) :
    (update s).shouldStep = s.shouldStep ∧
    (update s).shouldSweep = s.shouldSweep ∧
    (update s).shouldAutoProgress = s.shouldAutoProgress := ⟨rfl, rfl, rfl⟩

theorem update_angleOfAttack {D : Deps} (s : State D) :
    (update s).angleOfAttack = s.angleOfAttack := rfl

theorem update_issued {D : Deps} (s : State D) :
    (update s).issued = (doFastSweep s.angleOfAttack s).issued := rfl

theorem update_sim {D : Deps} (s : State D) :
    (update s).sim = (doFastSweep s.angleOfAttack s).sim := rfl

/-- C10, as the code has it: when a sweep returns (in `doFastSweep`, whether
called for an F request, inside `doAllAngles` or by `update`) the stored lift
and drag are the engine's lift and drag, and `s_shouldSweep` is what it was
before: completion does not clear the run-to-completion intent. -/
theorem sweep_completion_stores_sample (D : Deps) (s : State D) (a : ℚ) :
    ((doFastSweep a s).lift = D.simLift (doFastSweep a s).sim ∧
      (doFastSweep a s).drag = D.simDrag (doFastSweep a s).sim ∧
      (doFastSweep a s).shouldSweep = s.shouldSweep) ∧
    ((update s).lift = D.simLift (update s).sim ∧
      (update s).drag = D.simDrag (update s).sim ∧
      (update s).shouldSweep = s.shouldSweep) ∧
    ((doAllAngles s).lift = D.simLift (doAllAngles s).sim ∧
      (doAllAngles s).drag = D.simDrag (doAllAngles s).sim ∧
      (doAllAngles s).shouldSweep = s.shouldSweep) ∧
    (keyCallback GLFW_KEY_F GLFW_PRESS 0 s).shouldSweep = s.shouldSweep ∧
    (keyCallback GLFW_KEY_F GLFW_PRESS GLFW_MOD_SHIFT s).shouldSweep = s.shouldSweep := by
  refine ⟨⟨rfl, rfl, rfl⟩, ⟨rfl, rfl, rfl⟩, ?_, ?_, ?_⟩
  · rw [doAllAngles_eq_sweepEach]
    exact ⟨(sweepEach_sample _ allAngles_ne_nil s).1, (sweepEach_sample _ allAngles_ne_nil s).2,
      sweepEach_flags _ s⟩
  · rw [keyCallback_F]
    split_ifs
    · rfl
    · rfl
  · rw [keyCallback_shift_F]
    split_ifs
    · rw [doAllAngles_eq_sweepEach]
      exact sweepEach_flags _ s
    · rfl

/-- C10 fails: in the initial state the sweep intent is set, and it is still set
after the sweep of `update` and after the sweep of an F request. -/
theorem sweep_intent_survives_completion :
    demoInit.shouldSweep = true ∧
    (update demoInit).shouldSweep ≠ false ∧
    (keyCallback GLFW_KEY_F GLFW_PRESS 0 demoInit).shouldSweep ≠ false ∧
    (keyCallback GLFW_KEY_F GLFW_PRESS 0 demoInit).issued.length = 2 := by
  refine ⟨rfl, ?_, ?_, ?_⟩
  · intro h
    rw [(update_flags demoInit).2.1] at h
    exact Bool.noConfusion h
  · intro h
    rw [keyCallback_F, if_pos ⟨rfl, rfl⟩, (doFastSweep_flags _ demoInit).2.1] at h
    exact Bool.noConfusion h
  · rw [keyCallback_F, if_pos ⟨rfl, rfl⟩, doFastSweep_issued]
    rfl

/-! ## The per-frame update and the mode flags -/

theorem update_iterate_angleOfAttack {D : Deps} (s : State D) (n : ℕ) :
    (update^[n] s).angleOfAttack = s.angleOfAttack := by
  induction n with
  | zero => rfl
  | succ m ih => rw [Function.iterate_succ_apply', update_angleOfAttack, ih]

theorem update_iterate_autoProgress {D : Deps} (s : State D) (n : ℕ) :
    (update^[n] s).shouldAutoProgress = s.shouldAutoProgress := by
  induction n with
  | zero => rfl
  | succ m ih => rw [Function.iterate_succ_apply', (update_flags _).2.2, ih]

/-- C5 at the failing input: with auto progress on and angle of attack 0,
`update` makes its sweep and leaves the angle of attack at 0, frame after frame,
where the claim has it move to clamp(0 + 7, -90, 90) = 7. -/
theorem update_autoProgress_keeps_angle :
    demoAuto.shouldAutoProgress = true ∧
    demoAuto.angleOfAttack = 0 ∧
    clamp (demoAuto.angleOfAttack + k_autoAngleIncrement) (-k_maxAngleOfAttack)
      k_maxAngleOfAttack = 7 ∧
    (update demoAuto).angleOfAttack = 0 ∧
    (update demoAuto).issued.length = 2 ∧
    (∀ n : ℕ, (update^[n] demoAuto).shouldAutoProgress = true ∧
      (update^[n] demoAuto).angleOfAttack = 0) := by
  refine ⟨rfl, rfl, ?_, rfl, ?_, ?_⟩
  · show clamp ((0 : ℚ) + k_autoAngleIncrement) (-k_maxAngleOfAttack) k_maxAngleOfAttack = 7
    norm_num [clamp, k_autoAngleIncrement, k_maxAngleOfAttack]
  · rw [update_issued, doFastSweep_issued]
    rfl
  · intro n
    rw [update_iterate_autoProgress, update_iterate_angleOfAttack]
    exact ⟨rfl, rfl⟩

/-- C8 at the failing input: with auto progress off and no intent pending,
`update` still configures the engine and runs a full sweep; with only the step
intent pending it does the same, a full sweep, not one slice. -/
theorem update_ignores_intent :
    (demoNoIntent.shouldStep = false ∧ demoNoIntent.shouldSweep = false ∧
      demoNoIntent.shouldAutoProgress = false) ∧
    callsOf (update demoNoIntent) = [Cmd.set () (0 : ℚ) (0 : ℚ) 2 ⟨0, 0, 1⟩ false, Cmd.sweep] ∧
    (demoStepIntent.shouldStep = true ∧ demoStepIntent.shouldSweep = false ∧
      demoStepIntent.shouldAutoProgress = false) ∧
    callsOf (update demoStepIntent)
      = [Cmd.set () (0 : ℚ) (0 : ℚ) 2 ⟨0, 0, 1⟩ false, Cmd.sweep] := by
  refine ⟨⟨rfl, rfl, rfl⟩, ?_, ⟨rfl, rfl, rfl⟩, ?_⟩
  · simp only [callsOf, update_issued, doFastSweep_issued]
    norm_num [demoNoIntent, demoInit, initState, depthOf, k_simModel]
    exact ⟨rfl, rfl⟩
  · simp only [callsOf, update_issued, doFastSweep_issued]
    norm_num [demoStepIntent, demoInit, initState, depthOf, k_simModel]
    exact ⟨rfl, rfl⟩

/-! ## No call while the engine is busy -/

theorem quiet_of_same {D : Deps} {s t : State D} (hsim : t.sim = s.sim)
    (hiss : t.issued = s.issued) (h : Quiet s) : Quiet t := by
  unfold Quiet
  rw [hsim, hiss]
  exact h

theorem quiet_ite {D : Deps} {c : Prop} [Decidable c] {a b : State D} (ha : Quiet a)
    (hb : Quiet b) : Quiet (if c then a else b) := by
  by_cases h : c
  · rw [if_pos h]; exact ha
  · rw [if_neg h]; exact hb

theorem quiet_doFastSweep {D : Deps} (hC : EngineContract D) (a : ℚ) {s : State D}
    (h : Quiet s) : Quiet (doFastSweep a s) := by
  refine ⟨?_, ?_⟩
  · rw [doFastSweep_sim]
    exact hC.1 _
  · intro e he
    rw [doFastSweep_issued] at he
    simp only [List.mem_append, List.mem_cons, List.mem_singleton, List.not_mem_nil,
      or_false] at he
    rcases he with he | he | he
    · exact h.2 e he
    · rw [he]
      exact h.1
    · rw [he]
      exact hC.2 _ _ _ _ _ _ _ h.1

theorem quiet_sweepEach {D : Deps} (hC : EngineContract D) (l : List ℚ) :
    ∀ {s : State D}, Quiet s → Quiet (sweepEach l s) := by
  induction l with
  | nil => intro s h; exact h
  | cons a l ih =>
    intro s h
    exact ih (quiet_doFastSweep hC a h)

theorem quiet_doAllAngles {D : Deps} (hC : EngineContract D) {s : State D} (h : Quiet s) :
    Quiet (doAllAngles s) := by
  rw [doAllAngles_eq_sweepEach]
  exact quiet_sweepEach hC _ h

theorem quiet_update {D : Deps} (hC : EngineContract D) {s : State D} (h : Quiet s) :
    Quiet (update s) :=
  quiet_of_same (update_sim s) (update_issued s) (quiet_doFastSweep hC _ h)

theorem quiet_keyCallback {D : Deps} (hC : EngineContract D) (key action : Int) (mods : Nat)
    {s : State D} (h : Quiet s) : Quiet (keyCallback key action mods s) := by
  unfold keyCallback
  repeat' apply quiet_ite
  all_goals
    first
      | exact quiet_doFastSweep hC _ h
      | exact quiet_doAllAngles hC h
      | exact quiet_of_same rfl rfl h

theorem quiet_run {D : Deps} (hC : EngineContract D) (es : List Event) :
    ∀ {s : State D}, Quiet s → Quiet (run es s) := by
  induction es with
  | nil => intro s h; exact h
  | cons e es ih =>
    intro s h
    apply ih
    cases e with
    | key k a m => exact quiet_keyCallback hC k a m h
    | frame => exact quiet_update hC h

/-- C9: with an engine that returns from `sweep` at slice index 0 and that a
`set` leaves idle when it was idle, and starting from the initial state with
the engine idle, after any sequence of key events and per-frame updates every
`Simulation::set` and `Simulation::sweep` call of the trace was made at slice
index 0, and the engine is idle again. -/
theorem no_call_while_busy (D : Deps) (hC : EngineContract D) (sim : D.Sim)
    (hidle : D.simSlice sim = 0) (model : D.Model) (m4 : D.Mat4) (m3 : D.Mat3)
    (es : List Event) :
    (∀ e ∈ (run es (initState D sim model m4 m3)).issued, e.sliceAt = 0) ∧
    D.simSlice (run es (initState D sim model m4 m3)).sim = 0 := by
  have h0 : Quiet (initState D sim model m4 m3) :=
    ⟨hidle, fun e he => absurd he (List.not_mem_nil e)⟩
  exact ⟨(quiet_run hC es h0).2, (quiet_run hC es h0).1⟩

/-- C9 at a concrete run: a frame, an F request and another frame over the
always-idle engine. -/
theorem no_call_while_busy_witness :
    EngineContract demoDeps ∧ demoDeps.simSlice (0 : ℚ) = 0 ∧
    (∀ e ∈ (run [Event.frame, Event.key GLFW_KEY_F GLFW_PRESS 0, Event.frame]
        demoInit).issued, e.sliceAt = 0) ∧
    demoDeps.simSlice (run [Event.frame, Event.key GLFW_KEY_F GLFW_PRESS 0, Event.frame]
        demoInit).sim = 0 :=
  ⟨⟨fun _ => rfl, fun _ _ _ _ _ _ _ _ => rfl⟩, rfl,
    no_call_while_busy demoDeps ⟨fun _ => rfl, fun _ _ _ _ _ _ _ _ => rfl⟩ (0 : ℚ) rfl ()
      (0 : ℚ) (0 : ℚ) [Event.frame, Event.key GLFW_KEY_F GLFW_PRESS 0, Event.frame]⟩

end FlightSim
